import Mathlib

/-!
Verification of the Windows Event Log input plugin (win_eventlog) and the
service-config query of the win_services plugin.  The Go sources are embedded
shallowly: machine integers become `Nat`/`Int`, native syscalls become explicit
oracle functions passed as parameters, and fallible calls return
`Option`/`Except` values.
-/

namespace WinEventlogPlugin

/-- Native error codes used by the plugin.  The named constructors are the
windows syscall errors the code compares against; `other` covers every other
raw error code. -/
inductive ErrCode where
  | ERROR_NO_MORE_ITEMS
  | ERROR_INVALID_OPERATION
  | ERROR_INSUFFICIENT_BUFFER
  | other (code : Nat)
deriving DecidableEq, Repr

/-! ## Glob matching (path/filepath.Match, GOOS=windows)

The plugin classifies field names with `filepath.Match`.  On Windows the path
separator is `'\\'` and backslash escaping inside patterns is disabled.  A
malformed pattern makes `Match` report an error, which the plugin ignores,
leaving `matched == false`. -/

/-- `filepath.Separator` on Windows. -/
def separatorChar : Char := '\\'

/-- `getEsc`: read one endpoint of a character-class range.  Fails (bad
pattern) on an empty chunk, a leading `-` or `]`, or when nothing follows the
endpoint. -/
def getEsc : List Char → Option (Char × List Char)
  | [] => none
  | c :: rest =>
    if c = '-' ∨ c = ']' then none
    else if rest.isEmpty then none
    else some (c, rest)

/-- The range-parsing loop of the `'['` case of `matchChunk`: parse ranges
until the closing `]` (which must come after at least one range), recording
whether the scanned character `r` fell inside any range.  `none` models the
bad-pattern error. -/
def classRanges (r : Char) : Nat → List Char → Nat → Bool → Option (Bool × List Char)
  | 0, _, _, _ => none
  | fuel+1, chunk, nrange, found =>
    match chunk with
    | ']' :: rest =>
      if 0 < nrange then some (found, rest)
      else none
    | _ =>
      match getEsc chunk with
      | none => none
      | some (lo, chunk1) =>
        match chunk1 with
        | '-' :: chunk2 =>
          match getEsc chunk2 with
          | none => none
          | some (hi, chunk3) =>
            classRanges r fuel chunk3 (nrange + 1) (found || decide (lo ≤ r ∧ r ≤ hi))
        | _ =>
          classRanges r fuel chunk1 (nrange + 1) (found || decide (lo ≤ r ∧ r ≤ lo))

/-- Result of `matchChunk`: `bad` is the `ErrBadPattern` error, `failed` a
plain mismatch, `ok rest` a match leaving `rest` of the name unconsumed. -/
inductive ChunkRes where
  | bad
  | failed
  | ok (rest : List Char)
deriving DecidableEq, Repr

/-- `matchChunk`: match a star-free pattern chunk against the head of the
name.  `?` refuses the separator; `[...]` classes support `^` negation and
ranges; every other character (including `'\\'` on Windows) is literal. -/
def matchChunk : Nat → List Char → List Char → ChunkRes
  | 0, _, _ => .bad
  | fuel+1, chunk, s =>
    match chunk with
    | [] => .ok s
    | '[' :: chunk1 =>
      match s with
      | [] => .failed
      | r :: s1 =>
        let negated := match chunk1 with
          | '^' :: _ => true
          | _ => false
        let chunk2 := match chunk1 with
          | '^' :: c2 => c2
          | _ => chunk1
        match classRanges r (chunk2.length + 1) chunk2 0 false with
        | none => .bad
        | some (found, chunk3) =>
          if found = negated then .failed
          else matchChunk fuel chunk3 s1
    | '?' :: chunk1 =>
      match s with
      | [] => .failed
      | c :: s1 => if c = separatorChar then .failed else matchChunk fuel chunk1 s1
    | c :: chunk1 =>
      match s with
      | [] => .failed
      | c' :: s1 => if c = c' then matchChunk fuel chunk1 s1 else .failed

/-- Leading-star stripping of `scanChunk`. -/
def stripStars : List Char → Bool → Bool × List Char
  | '*' :: rest, _ => stripStars rest true
  | p, star => (star, p)

/-- The scan loop of `scanChunk`: cut the pattern at the first `*` that is not
inside a character class. -/
def scanChunkAux : List Char → Bool → List Char × List Char
  | [], _ => ([], [])
  | c :: rest, inrange =>
    if c = '*' ∧ inrange = false then ([], c :: rest)
    else
      let inrange' := if c = '[' then true else if c = ']' then false else inrange
      let (chunk, p) := scanChunkAux rest inrange'
      (c :: chunk, p)

/-- `scanChunk`: split a pattern into (leading-star flag, star-free chunk,
remaining pattern). -/
def scanChunk (pattern : List Char) : Bool × List Char × List Char :=
  let (star, p) := stripStars pattern false
  let (chunk, rest) := scanChunkAux p false
  (star, chunk, rest)

mutual

/-- The main loop of `filepath.Match`.  A trailing `*` matches any remainder
without a separator; otherwise each chunk must match at the current position,
a preceding `*` allowing the chunk to slide forward over the name. -/
def matchPattern : Nat → List Char → List Char → Bool
  | 0, _, _ => false
  | fuel+1, pattern, name =>
    match pattern with
    | [] => name.isEmpty
    | _ =>
      let (star, chunk, rest) := scanChunk pattern
      if star ∧ chunk.isEmpty then
        !(name.contains separatorChar)
      else
        match matchChunk (chunk.length + name.length + 1) chunk name with
        | .ok t =>
          if t.isEmpty ∨ !rest.isEmpty then matchPattern fuel rest t
          else if star then starLoop fuel chunk rest name
          else false
        | .bad => false
        | .failed => if star then starLoop fuel chunk rest name else false

/-- The star-retry loop of `filepath.Match`: try the chunk at each later
position of the name, stopping at a separator. -/
def starLoop : Nat → List Char → List Char → List Char → Bool
  | 0, _, _, _ => false
  | fuel+1, chunk, rest, name =>
    match name with
    | [] => false
    | c :: nameTail =>
      if c = separatorChar then false
      else
        match matchChunk (chunk.length + nameTail.length + 1) chunk nameTail with
        | .ok t =>
          if rest.isEmpty ∧ !t.isEmpty then starLoop fuel chunk rest nameTail
          else matchPattern fuel rest t
        | .bad => false
        | .failed => starLoop fuel chunk rest nameTail

end

/-- `filepath.Match pattern name` with the error ignored, as every call site
of the plugin does (`matched, _ := filepath.Match(...)`).  The fuel bounds the
number of loop iterations, which is at most one per pattern chunk plus one per
skipped name character. -/
def filepathMatch (pattern name : String) : Bool :=
  matchPattern ((pattern.length + 1) * (name.length + 2) + 1) pattern.data name.data

example : filepathMatch "Level*" "LevelText" = true := by decide
example : filepathMatch "Level*" "Level" = true := by decide
example : filepathMatch "*" "EventID" = true := by decide
example : filepathMatch "*ActivityID" "RelatedActivityID" = true := by decide
example : filepathMatch "TimeCreated" "TimeCreate" = false := by decide
example : filepathMatch "Data_Address?" "Data_Address1" = true := by decide
example : filepathMatch "[a-c]x" "bx" = true := by decide
example : filepathMatch "[^a-c]x" "dx" = true := by decide
example : filepathMatch "a[" "ab" = false := by decide

/-! ## Plugin configuration and field classification -/

/-- A typed field value as it flows into the accumulator.  The constructors
carry the Go dynamic type that `shouldExcludeEmptyField` switches on
(`string`, `int`, `uint32`); `time` stands for any of the other value types
the plugin produces (e.g. `time.Time`), which the switch leaves unhandled. -/
inductive FieldValue where
  | str (s : String)
  | int (i : Int)
  | uint32 (u : Nat)
  | time (t : String)
deriving DecidableEq, Repr

/-- The `WinEventLog` plugin struct.  `buf []byte` is modelled by its length
`bufLen`; its contents after a native render call come from the render
oracle.  The logger field is the external logging collaborator and is
omitted. -/
structure WinEventLog where
  Locale : Nat
  EventlogName : String
  Query : String
  ProcessUserData : Bool
  ProcessEventData : Bool
  Separator : String
  OnlyFirstLineOfMessage : Bool
  TimeStampFromEvent : Bool
  EventTags : List String
  EventFields : List String
  ExcludeFields : List String
  ExcludeEmpty : List String
  subscription : Nat
  bufLen : Nat
deriving Repr

/-- The `for`/`return true` loop shared by `shouldExclude` and the two
pattern-list scans of `shouldProcessField`: does any pattern of the list match
the field name? -/
def matchAnyLoop (field : String) : List String → Bool
  | [] => false
  | pattern :: rest =>
    if filepathMatch pattern field then true else matchAnyLoop field rest

/-- `WinEventLog.shouldExclude`: does the field name match the configured
exclude list? -/
def shouldExclude (w : WinEventLog) (field : String) : Bool :=
  matchAnyLoop field w.ExcludeFields

/-- `WinEventLog.shouldProcessField`: scan the tag patterns first (tags are
not excluded), then the field patterns, applying the exclude list only to
field-destined names. -/
def shouldProcessField (w : WinEventLog) (field : String) : Bool × String :=
  if matchAnyLoop field w.EventTags then
    (true, "tags")
  else if matchAnyLoop field w.EventFields then
    if shouldExclude w field then (false, "excluded") else (true, "fields")
  else
    (false, "excluded")

/-- The pattern loop of `WinEventLog.shouldExcludeEmptyField`: on the first
pattern matching the field name, switch on the value's dynamic type
(`string` / `int` / `uint32`, with a matching type assertion) and report
whether the value is zero; a value of any other type leaves the switch
without returning, so the loop continues. -/
def excludeEmptyLoop (field : String) (v : FieldValue) : List String → Bool
  | [] => false
  | pattern :: rest =>
    if filepathMatch pattern field then
      match v with
      | .str s => s.length < 1
      | .int i => i = 0
      | .uint32 u => u = 0
      | .time _ => excludeEmptyLoop field v rest
    else excludeEmptyLoop field v rest

/-- `WinEventLog.shouldExcludeEmptyField`. -/
def shouldExcludeEmptyField (w : WinEventLog) (field : String) (v : FieldValue) : Bool :=
  excludeEmptyLoop field v w.ExcludeEmpty

/-- Zero value of a field's semantic type: empty string, integer 0, unsigned
0.  Values of other types are never zero in this sense. -/
def FieldValue.isZero : FieldValue → Bool
  | .str s => s.length < 1
  | .int i => i = 0
  | .uint32 u => u = 0
  | .time _ => false

theorem matchAnyLoop_iff (field : String) (l : List String) :
    matchAnyLoop field l = true ↔ ∃ p ∈ l, filepathMatch p field = true := by
  induction l with
  | nil => simp [matchAnyLoop]
  | cons p rest ih =>
    by_cases h : filepathMatch p field = true
    · simp [matchAnyLoop, h]
    · simp only [Bool.not_eq_true] at h
      simp [matchAnyLoop, h, ih]

theorem matchAnyLoop_eq_false (field : String) (l : List String) :
    matchAnyLoop field l = false ↔ ∀ p ∈ l, filepathMatch p field = false := by
  rw [← Bool.not_eq_true, matchAnyLoop_iff]
  simp

/-- A plugin configuration with the zero/default scalar settings and the
given four pattern lists; used to instantiate the classification theorems. -/
def mkConfig (tags fields excludes excludeEmpty : List String) : WinEventLog :=
  { Locale := 0, EventlogName := "", Query := "", ProcessUserData := true,
    ProcessEventData := true, Separator := "_", OnlyFirstLineOfMessage := true,
    TimeStampFromEvent := true, EventTags := tags, EventFields := fields,
    ExcludeFields := excludes, ExcludeEmpty := excludeEmpty,
    subscription := 0, bufLen := 16384 }

/-- Claim C2: classification checks tag patterns first and any match yields
the tag list even when an exclude pattern also matches; otherwise a
field-pattern match yields "excluded" exactly when an exclude pattern
matches, and a name matching neither list is "excluded". -/
theorem shouldProcessField_classification (w : WinEventLog) (field : String) :
    ((∃ p ∈ w.EventTags, filepathMatch p field = true) →
        shouldProcessField w field = (true, "tags"))
  ∧ ((∀ p ∈ w.EventTags, filepathMatch p field = false) →
     (∃ p ∈ w.EventFields, filepathMatch p field = true) →
     (∃ p ∈ w.ExcludeFields, filepathMatch p field = true) →
        shouldProcessField w field = (false, "excluded"))
  ∧ ((∀ p ∈ w.EventTags, filepathMatch p field = false) →
     (∃ p ∈ w.EventFields, filepathMatch p field = true) →
     (∀ p ∈ w.ExcludeFields, filepathMatch p field = false) →
        shouldProcessField w field = (true, "fields"))
  ∧ ((∀ p ∈ w.EventTags, filepathMatch p field = false) →
     (∀ p ∈ w.EventFields, filepathMatch p field = false) →
        shouldProcessField w field = (false, "excluded")) := by
  refine ⟨?_, ?_, ?_, ?_⟩
  · intro h
    have ht : matchAnyLoop field w.EventTags = true := (matchAnyLoop_iff _ _).2 h
    simp [shouldProcessField, ht]
  · intro ht hf hx
    have ht' : matchAnyLoop field w.EventTags = false := (matchAnyLoop_eq_false _ _).2 ht
    have hf' : matchAnyLoop field w.EventFields = true := (matchAnyLoop_iff _ _).2 hf
    have hx' : matchAnyLoop field w.ExcludeFields = true := (matchAnyLoop_iff _ _).2 hx
    simp [shouldProcessField, shouldExclude, ht', hf', hx']
  · intro ht hf hx
    have ht' : matchAnyLoop field w.EventTags = false := (matchAnyLoop_eq_false _ _).2 ht
    have hf' : matchAnyLoop field w.EventFields = true := (matchAnyLoop_iff _ _).2 hf
    have hx' : matchAnyLoop field w.ExcludeFields = false := (matchAnyLoop_eq_false _ _).2 hx
    simp [shouldProcessField, shouldExclude, ht', hf', hx']
  · intro ht hf
    have ht' : matchAnyLoop field w.EventTags = false := (matchAnyLoop_eq_false _ _).2 ht
    have hf' : matchAnyLoop field w.EventFields = false := (matchAnyLoop_eq_false _ _).2 hf
    simp [shouldProcessField, ht', hf']

/-- Concrete instantiation of the classification theorem: `Level` is
tag-listed and exclude-listed and still classifies as a tag; `TimeCreated` is
field-matched but excluded; `EventID` is a plain field; `Message` matches
neither list under a narrowed field list. -/
theorem shouldProcessField_classification_witness :
    shouldProcessField (mkConfig ["Level*"] ["*"] ["Level*", "TimeCreated"] []) "Level"
        = (true, "tags")
  ∧ shouldProcessField (mkConfig ["Level*"] ["*"] ["Level*", "TimeCreated"] []) "TimeCreated"
        = (false, "excluded")
  ∧ shouldProcessField (mkConfig ["Level*"] ["*"] ["Level*", "TimeCreated"] []) "EventID"
        = (true, "fields")
  ∧ shouldProcessField (mkConfig ["Level*"] ["E*"] [] []) "Message"
        = (false, "excluded") := by
  refine ⟨?_, ?_, ?_, ?_⟩
  · exact (shouldProcessField_classification
      (mkConfig ["Level*"] ["*"] ["Level*", "TimeCreated"] []) "Level").1
      ⟨"Level*", by decide, by decide⟩
  · exact (shouldProcessField_classification
      (mkConfig ["Level*"] ["*"] ["Level*", "TimeCreated"] []) "TimeCreated").2.1
      (by decide) ⟨"*", by decide, by decide⟩ ⟨"TimeCreated", by decide, by decide⟩
  · exact (shouldProcessField_classification
      (mkConfig ["Level*"] ["*"] ["Level*", "TimeCreated"] []) "EventID").2.2.1
      (by decide) ⟨"*", by decide, by decide⟩ (by decide)
  · exact (shouldProcessField_classification
      (mkConfig ["Level*"] ["E*"] [] []) "Message").2.2.2
      (by decide) (by decide)

theorem excludeEmptyLoop_iff (field : String) (v : FieldValue) (l : List String) :
    excludeEmptyLoop field v l = true ↔
      (∃ p ∈ l, filepathMatch p field = true) ∧ v.isZero = true := by
  induction l with
  | nil => simp [excludeEmptyLoop]
  | cons p rest ih =>
    by_cases h : filepathMatch p field = true
    · cases v with
      | str s => simp [excludeEmptyLoop, h, FieldValue.isZero]
      | int i => simp [excludeEmptyLoop, h, FieldValue.isZero]
      | uint32 u => simp [excludeEmptyLoop, h, FieldValue.isZero]
      | time t => simp [excludeEmptyLoop, h, FieldValue.isZero, ih]
    · simp only [Bool.not_eq_true] at h
      simp [excludeEmptyLoop, h, ih]

/-- Claim C9: empty-value suppression returns true exactly when the field
name matches an exclude-empty pattern and the value is the zero value of its
semantic type (empty string, integer 0, unsigned 0); values of any other
type are never suppressed. -/
theorem shouldExcludeEmptyField_spec (w : WinEventLog) (field : String) (v : FieldValue) :
    shouldExcludeEmptyField w field v = true ↔
      (∃ p ∈ w.ExcludeEmpty, filepathMatch p field = true) ∧ v.isZero = true :=
  excludeEmptyLoop_iff field v w.ExcludeEmpty

/-! ## Event model, XML unrolling and the derived description -/

/-- A parsed XML fragment node.  The raw `InnerXML` bytes of the Go struct
are modelled as an already-parsed node tree (XML tokenisation itself is done
by the standard library). -/
inductive XmlNode where
  | text (s : String)
  | element (name : String) (attrs : List (String × String)) (children : List XmlNode)

/-- Modelled from the spec: the `Event` structure (event.go is not among the
provided sources; §3 of the design lists its System fields plus the optional
UserData/EventData fragments).  `Source.Name` is flattened to `SourceName`
and `TimeCreated.SystemTime` to `TimeCreatedSystemTime`; defaults are the Go
zero values. -/
structure Event where
  SourceName : String := ""
  EventID : Int := 0
  Version : Int := 0
  Level : Int := 0
  Task : Int := 0
  Opcode : Int := 0
  Keywords : String := ""
  TimeCreatedSystemTime : String := ""
  EventRecordID : Int := 0
  ActivityID : String := ""
  RelatedActivityID : String := ""
  ProcessID : Int := 0
  ThreadID : Int := 0
  ProcessName : String := ""
  Channel : String := ""
  Computer : String := ""
  UserID : String := ""
  UserName : String := ""
  Message : String := ""
  LevelText : String := ""
  TaskText : String := ""
  OpcodeText : String := ""
  UserDataInnerXML : List XmlNode := []
  EventDataInnerXML : List XmlNode := []

/-- The Go zero value `Event{}`. -/
def Event.empty : Event := {}

/-- Modelled from the spec: collision handling of the XML unroller — the
first use of a generated name keeps it, later uses append a numeric
discriminator `_2`, `_3`, …  The usage map counts the generations of each
name. -/
def bumpFieldName (usage : List (String × Nat)) (name : String) :
    String × List (String × Nat) :=
  match usage.lookup name with
  | none => (name, (name, 1) :: usage)
  | some k => (name ++ "_" ++ toString (k + 1), (name, k + 1) :: usage)

/-- Modelled from the spec: attribute unrolling — one field per attribute
under `path + separator + attributeName`, in document order. -/
def unrollAttrs (sep path : String) (usage : List (String × Nat)) :
    List (String × String) → List (String × String) × List (String × Nat)
  | [] => ([], usage)
  | (a, v) :: rest =>
    let (n, usage') := bumpFieldName usage (path ++ sep ++ a)
    let (fs, usage'') := unrollAttrs sep path usage' rest
    ((n, v) :: fs, usage'')

mutual

/-- Modelled from the spec: unroll one XML node — a text leaf emits the
(joined-ancestor-path, text) pair; an element extends the path with the
separator, emits its attributes, and recurses into its children in document
order. -/
def unrollNode (sep path : String) (usage : List (String × Nat)) :
    XmlNode → List (String × String) × List (String × Nat)
  | .text s =>
    let (n, usage') := bumpFieldName usage path
    ([(n, s)], usage')
  | .element name attrs children =>
    let path' := if path = "" then name else path ++ sep ++ name
    let (attrFields, usage') := unrollAttrs sep path' usage attrs
    let (childFields, usage'') := unrollNodes sep path' usage' children
    (attrFields ++ childFields, usage'')

/-- Modelled from the spec: unroll a node list in document order, threading
the usage map. -/
def unrollNodes (sep path : String) (usage : List (String × Nat)) :
    List XmlNode → List (String × String) × List (String × Nat)
  | [] => ([], usage)
  | n :: rest =>
    let (fs1, u1) := unrollNode sep path usage n
    let (fs2, u2) := unrollNodes sep path u1 rest
    (fs1 ++ fs2, u2)

end

/-- Modelled from the spec: `UnrollXMLFields(data, fieldsUsage, separator)`
(xmlfields.go is not among the provided sources) — flatten an XML fragment
into (name, value) fields in document order. -/
def UnrollXMLFields (data : List XmlNode) (fieldsUsage : List (String × Nat))
    (separator : String) : List (String × String) × List (String × Nat) :=
  unrollNodes separator "" fieldsUsage data

/-- One pass of the CR/LF-run replacement: a maximal run of carriage-return
or line-feed characters becomes a single `|`.  The flag records whether the
previous character belonged to such a run. -/
def collapseCrlfAux : List Char → Bool → List Char
  | [], _ => []
  | c :: rest, inRun =>
    if c = '\r' ∨ c = '\n' then
      if inRun then collapseCrlfAux rest true
      else '|' :: collapseCrlfAux rest true
    else c :: collapseCrlfAux rest false

/-- The regex replacement of CR/LF runs by `|` used for the description and
the message. -/
def collapseCrlf (s : String) : String := ⟨collapseCrlfAux s.data false⟩

/-- `createDescriptionFromEvent`: flatten the EventData fragment with a fresh
usage map and separator `"_"`, join the values with `|`, and collapse
internal CR/LF runs to `|`.  It is a plain function of the event: the
`ProcessEventData` / `ProcessUserData` settings play no part in it. -/
def createDescriptionFromEvent (event : Event) : String :=
  let fieldsEventData := (UnrollXMLFields event.EventDataInnerXML [] "_").1
  let eventDataValues := fieldsEventData.map (fun f => f.2)
  let description := String.intercalate "|" eventDataValues
  collapseCrlf description

/-! ## The polling loop (Gather / fetchEvents / fetchEventHandles) -/

/-- Timestamp of an emitted record: either the value parsed from the event's
`TimeCreated.SystemTime` text, or the wall-clock time at the processing
instant (`time.Now()`). -/
inductive Timestamp where
  | parsed (t : String)
  | wallClock
deriving DecidableEq, Repr

/-- One accumulator emission: an `acc.AddFields(measurement, fields, tags,
timestamp)` call. -/
structure Record where
  measurement : String
  fields : List (String × FieldValue)
  tags : List (String × String)
  timestamp : Timestamp
deriving DecidableEq, Repr

/-- The per-event body of `WinEventLog.Gather`: parse the event time (falling
back to `time.Now()` on failure), derive the description, and emit one
`win_event` record with the fixed field set and the single `eventlog_name`
tag.  `parseOk` tells whether `time.Parse(time.RFC3339Nano, …)` succeeds on
the given text.  The receiver is unused by this code: none of the configured
pattern lists nor `TimeStampFromEvent` is consulted. -/
def eventRecord (_w : WinEventLog) (parseOk : String → Bool) (event : Event) : Record :=
  let eventTime := event.TimeCreatedSystemTime
  let timeStamp := if parseOk eventTime then Timestamp.parsed eventTime
                   else Timestamp.wallClock
  let description := createDescriptionFromEvent event
  { measurement := "win_event"
  , fields :=
      [ ("record_id", .int event.EventRecordID)
      , ("event_id", .int event.EventID)
      , ("level", .int event.Level)
      , ("message", .str event.Message)
      , ("description", .str description)
      , ("source", .str event.SourceName)
      , ("created", .str eventTime) ]
  , tags := [("eventlog_name", event.Channel)]
  , timestamp := timeStamp }

/-- An opaque native event handle (`EvtHandle`). -/
abbrev EvtHandle := Nat

/-- The observable native calls of one fetch, in program order. -/
inductive NativeAction where
  | nextCall (count : Nat)
  | renderCall (h : EvtHandle)
  | closeCall (h : EvtHandle)
deriving DecidableEq, Repr

/-- Result of one `_EvtNext` call: the raw error (`none` on success), the
`evtReturned` out-parameter, and the contents of the handle array after the
call. -/
structure EvtNextOut where
  err : Option ErrCode
  evtReturned : Nat
  buffer : List EvtHandle

/-- The native collaborators of one poll iteration: `_EvtNext` keyed by the
requested batch size, the per-handle outcome of `w.renderEvent`, and
`_EvtClose`. -/
structure NativeEnv where
  evtNext : Nat → EvtNextOut
  render : EvtHandle → Event × Option ErrCode
  evtClose : EvtHandle → Option ErrCode

/-- The fixed batch size `eventsNumber = 5` requested from `_EvtNext`. -/
def eventsNumber : Nat := 5

/-- `WinEventLog.fetchEventHandles`: one `_EvtNext` call for `eventsNumber`
handles.  The invalid-operation error with zero handles returned is mapped to
`ERROR_NO_MORE_ITEMS`; any other error is returned raw; on success the first
`evtReturned` slots of the array are the batch. -/
def fetchEventHandles (evtNext : Nat → EvtNextOut) :
    Except ErrCode (List EvtHandle) × List NativeAction :=
  let out := evtNext eventsNumber
  match out.err with
  | some e =>
    if e = ErrCode.ERROR_INVALID_OPERATION ∧ out.evtReturned = 0 then
      (.error .ERROR_NO_MORE_ITEMS, [.nextCall eventsNumber])
    else
      (.error e, [.nextCall eventsNumber])
  | none => (.ok (out.buffer.take out.evtReturned), [.nextCall eventsNumber])

/-- The first loop of `fetchEvents`: render every non-null handle of the
batch, keeping the events whose render reported no error. -/
def renderLoop (render : EvtHandle → Event × Option ErrCode) :
    List EvtHandle → List Event × List NativeAction
  | [] => ([], [])
  | h :: rest =>
    if h ≠ 0 then
      let (event, err) := render h
      let (events, tr) := renderLoop render rest
      let events' := match err with
        | none => event :: events
        | some _ => events
      (events', NativeAction.renderCall h :: tr)
    else renderLoop render rest

/-- The second loop of `fetchEvents`: close every handle of the batch in
order, stopping at the first close error, which is returned. -/
def closeLoop (close : EvtHandle → Option ErrCode) :
    List EvtHandle → Option ErrCode × List NativeAction
  | [] => (none, [])
  | h :: rest =>
    match close h with
    | some e => (some e, [NativeAction.closeCall h])
    | none =>
      let (r, tr) := closeLoop close rest
      (r, NativeAction.closeCall h :: tr)

/-- `WinEventLog.fetchEvents`: pull a batch of handles, render the non-null
ones, then close all handles of the batch; a close error is returned together
with the events rendered so far. -/
def fetchEvents (env : NativeEnv) :
    List Event × Option ErrCode × List NativeAction :=
  match fetchEventHandles env.evtNext with
  | (.error e, tr) => ([], some e, tr)
  | (.ok handles, tr) =>
    let (events, rtr) := renderLoop env.render handles
    let (cerr, ctr) := closeLoop env.evtClose handles
    (events, cerr, tr ++ rtr ++ ctr)

/-- The polling loop of `WinEventLog.Gather`, driven by the native
environment of each successive iteration.  Records are accumulated in
emission order (one `acc.AddFields` per event); `ERROR_NO_MORE_ITEMS` ends
the cycle quietly, any other fetch error ends it with that error and without
the events of that pull. -/
def gatherLoop (w : WinEventLog) (parseOk : String → Bool) :
    List NativeEnv → List Record × Option ErrCode
  | [] => ([], none)
  | env :: rest =>
    let (events, err, _) := fetchEvents env
    match err with
    | some e =>
      if e = ErrCode.ERROR_NO_MORE_ITEMS then ([], none) else ([], some e)
    | none =>
      let recs := events.map (eventRecord w parseOk)
      let (more, err') := gatherLoop w parseOk rest
      (recs ++ more, err')

/-! ## Poll-cycle theorems -/

theorem fetchEventHandles_trace (evtNext : Nat → EvtNextOut) :
    (fetchEventHandles evtNext).2 = [NativeAction.nextCall eventsNumber] := by
  unfold fetchEventHandles
  cases h : (evtNext eventsNumber).err with
  | none => simp [h]
  | some e =>
    simp only [h]
    split <;> rfl

theorem closeLoop_all_ok (close : EvtHandle → Option ErrCode)
    (hclose : ∀ h, close h = none) (handles : List EvtHandle) :
    closeLoop close handles = (none, handles.map NativeAction.closeCall) := by
  induction handles with
  | nil => rfl
  | cons h rest ih => simp [closeLoop, hclose h, ih]

theorem renderLoop_actions (render : EvtHandle → Event × Option ErrCode)
    (handles : List EvtHandle) :
    ∀ a ∈ (renderLoop render handles).2, ∃ h, a = NativeAction.renderCall h := by
  induction handles with
  | nil => simp [renderLoop]
  | cons h rest ih =>
    intro a ha
    by_cases hz : h ≠ 0
    · rw [renderLoop, if_pos hz] at ha
      simp only at ha
      rcases List.mem_cons.1 ha with rfl | ha'
      · exact ⟨h, rfl⟩
      · exact ih a ha'
    · rw [renderLoop, if_neg hz] at ha
      exact ih a ha

theorem closeLoop_stops_at_error (close : EvtHandle → Option ErrCode)
    (pre : List EvtHandle) (h : EvtHandle) (post : List EvtHandle) (e : ErrCode)
    (hpre : ∀ x ∈ pre, close x = none) (hfail : close h = some e) :
    closeLoop close (pre ++ h :: post)
      = (some e, pre.map NativeAction.closeCall ++ [NativeAction.closeCall h]) := by
  induction pre with
  | nil => simp [closeLoop, hfail]
  | cons x rest ih =>
    have hx : close x = none := hpre x (List.mem_cons_self x rest)
    have ih' := ih (fun y hy => hpre y (List.mem_cons_of_mem x hy))
    simp [closeLoop, hx, ih']

/-- Claim C4: a pull reporting the invalid-operation condition with zero
events returned is treated as normal end-of-backlog — `fetchEventHandles`
turns it into `ERROR_NO_MORE_ITEMS`, and the poll cycle ends quietly with no
error and no emitted records. -/
theorem gather_end_of_backlog (w : WinEventLog) (parseOk : String → Bool)
    (env : NativeEnv) (rest : List NativeEnv)
    (herr : (env.evtNext eventsNumber).err = some ErrCode.ERROR_INVALID_OPERATION)
    (hret : (env.evtNext eventsNumber).evtReturned = 0) :
    (fetchEventHandles env.evtNext).1 = Except.error ErrCode.ERROR_NO_MORE_ITEMS
    ∧ gatherLoop w parseOk (env :: rest) = ([], none) := by
  have h0 : fetchEventHandles env.evtNext
      = (Except.error ErrCode.ERROR_NO_MORE_ITEMS, [NativeAction.nextCall eventsNumber]) := by
    unfold fetchEventHandles
    simp [herr, hret]
  have h1 : fetchEvents env
      = ([], some ErrCode.ERROR_NO_MORE_ITEMS, [NativeAction.nextCall eventsNumber]) := by
    unfold fetchEvents
    rw [h0]
  constructor
  · rw [h0]
  · unfold gatherLoop
    rw [h1]
    rfl

/-- The native environment of a pull that reports invalid-operation with
zero events returned. -/
def envEndOfBacklog : NativeEnv :=
  { evtNext := fun _ => ⟨some ErrCode.ERROR_INVALID_OPERATION, 0, [0, 0, 0, 0, 0]⟩
  , render := fun _ => (Event.empty, none)
  , evtClose := fun _ => none }

/-- Concrete instantiation of the end-of-backlog theorem. -/
theorem gather_end_of_backlog_witness :
    (fetchEventHandles envEndOfBacklog.evtNext).1
        = Except.error ErrCode.ERROR_NO_MORE_ITEMS
    ∧ gatherLoop (mkConfig [] ["*"] [] []) (fun _ => true) [envEndOfBacklog]
        = ([], none) :=
  gather_end_of_backlog (mkConfig [] ["*"] [] []) (fun _ => true)
    envEndOfBacklog [] rfl rfl

/-- Claim C6: a pull requests exactly 5 handles (the trace opens with
`nextCall 5`), and when closing succeeds the native trace is the renders of
the batch followed by one close per returned handle — every handle is
released after all handles were processed, whatever the render outcomes. -/
theorem fetchEvents_batch_release (env : NativeEnv) (handles : List EvtHandle)
    (hok : (fetchEventHandles env.evtNext).1 = Except.ok handles)
    (hclose : ∀ h, env.evtClose h = none) :
    (fetchEvents env).2.2
      = NativeAction.nextCall 5
          :: (renderLoop env.render handles).2 ++ handles.map NativeAction.closeCall
    ∧ (∀ a ∈ (renderLoop env.render handles).2, ∃ h, a = NativeAction.renderCall h)
    ∧ (fetchEvents env).2.1 = none := by
  have htr := fetchEventHandles_trace env.evtNext
  have hpair : fetchEventHandles env.evtNext
      = (Except.ok handles, [NativeAction.nextCall eventsNumber]) := by
    rcases hfe : fetchEventHandles env.evtNext with ⟨r, tr⟩
    rw [hfe] at hok htr
    simp only at hok htr
    rw [hok, htr]
  have hfev : fetchEvents env
      = ((renderLoop env.render handles).1, none,
          NativeAction.nextCall eventsNumber
            :: (renderLoop env.render handles).2 ++ handles.map NativeAction.closeCall) := by
    unfold fetchEvents
    rw [hpair]
    simp [closeLoop_all_ok env.evtClose hclose handles]
  refine ⟨?_, renderLoop_actions env.render handles, ?_⟩
  · rw [hfev]
    rfl
  · rw [hfev]

/-- A pull returning three handles (one of them null), with one render
failing and all closes succeeding. -/
def envBatch : NativeEnv :=
  { evtNext := fun _ => ⟨none, 3, [7, 0, 9, 0, 0]⟩
  , render := fun h =>
      (Event.empty, if h = 9 then some (ErrCode.other 5) else none)
  , evtClose := fun _ => none }

/-- Concrete instantiation of the batch-release theorem: handle 9 fails to
render and is closed all the same. -/
theorem fetchEvents_batch_release_witness :
    (fetchEvents envBatch).2.2
      = NativeAction.nextCall 5
          :: (renderLoop envBatch.render [7, 0, 9]).2
          ++ [7, 0, 9].map NativeAction.closeCall
    ∧ (∀ a ∈ (renderLoop envBatch.render [7, 0, 9]).2,
        ∃ h, a = NativeAction.renderCall h)
    ∧ (fetchEvents envBatch).2.1 = none :=
  fetchEvents_batch_release envBatch [7, 0, 9] rfl (fun _ => rfl)

/-- Claim C10: if closing a handle of the batch fails, the remaining handles
are not closed (the trace ends at the failing close), `fetchEvents` returns
the close error, and the poll cycle aborts with that error, discarding the
events already rendered from that batch. -/
theorem fetchEvents_close_error_aborts (w : WinEventLog) (parseOk : String → Bool)
    (env : NativeEnv) (rest : List NativeEnv)
    (pre : List EvtHandle) (h : EvtHandle) (post : List EvtHandle) (e : ErrCode)
    (hok : (fetchEventHandles env.evtNext).1 = Except.ok (pre ++ h :: post))
    (hpre : ∀ x ∈ pre, env.evtClose x = none)
    (hfail : env.evtClose h = some e)
    (hne : e ≠ ErrCode.ERROR_NO_MORE_ITEMS) :
    (fetchEvents env).2.1 = some e
    ∧ (fetchEvents env).2.2
      = NativeAction.nextCall 5
          :: (renderLoop env.render (pre ++ h :: post)).2
          ++ (pre.map NativeAction.closeCall ++ [NativeAction.closeCall h])
    ∧ gatherLoop w parseOk (env :: rest) = ([], some e) := by
  have htr := fetchEventHandles_trace env.evtNext
  have hpair : fetchEventHandles env.evtNext
      = (Except.ok (pre ++ h :: post), [NativeAction.nextCall eventsNumber]) := by
    rcases hfe : fetchEventHandles env.evtNext with ⟨r, tr⟩
    rw [hfe] at hok htr
    simp only at hok htr
    rw [hok, htr]
  have hfev : fetchEvents env
      = ((renderLoop env.render (pre ++ h :: post)).1, some e,
          NativeAction.nextCall eventsNumber
            :: (renderLoop env.render (pre ++ h :: post)).2
            ++ (pre.map NativeAction.closeCall ++ [NativeAction.closeCall h])) := by
    unfold fetchEvents
    rw [hpair]
    simp [closeLoop_stops_at_error env.evtClose pre h post e hpre hfail]
  refine ⟨?_, ?_, ?_⟩
  · rw [hfev]
  · rw [hfev]
    rfl
  · unfold gatherLoop
    rw [hfev]
    simp [hne]

/-- A pull returning two handles whose second close fails. -/
def envCloseFail : NativeEnv :=
  { evtNext := fun _ => ⟨none, 2, [3, 4, 0, 0, 0]⟩
  , render := fun _ => (Event.empty, none)
  , evtClose := fun h => if h = 4 then some (ErrCode.other 87) else none }

/-- Concrete instantiation of the close-error theorem: handle 3 closes, the
close of handle 4 fails, and the rendered events of the batch are dropped. -/
theorem fetchEvents_close_error_aborts_witness :
    (fetchEvents envCloseFail).2.1 = some (ErrCode.other 87)
    ∧ (fetchEvents envCloseFail).2.2
      = NativeAction.nextCall 5
          :: (renderLoop envCloseFail.render ([3] ++ 4 :: [])).2
          ++ ([3].map NativeAction.closeCall ++ [NativeAction.closeCall 4])
    ∧ gatherLoop (mkConfig [] ["*"] [] []) (fun _ => true) [envCloseFail]
        = ([], some (ErrCode.other 87)) :=
  fetchEvents_close_error_aborts (mkConfig [] ["*"] [] []) (fun _ => true)
    envCloseFail [] [3] 4 [] (ErrCode.other 87) rfl
    (by intro x hx; simp at hx; simp [hx, envCloseFail])
    rfl (by decide)

/-! ## Divergences between the emission code and the configuration surface -/

/-- The configuration of the spec's projection scenario: tag patterns
`Level*`, field patterns `*`, no excludes. -/
def scenarioConfig : WinEventLog := mkConfig ["Level*"] ["*"] [] []

/-- The event of the spec's projection scenario: `Level=2`, `Source="App"`,
resolved `LevelText="Error"`. -/
def scenarioEvent : Event :=
  { SourceName := "App", EventID := 1000, Level := 2, LevelText := "Error",
    Channel := "Application", Message := "Example message",
    TimeCreatedSystemTime := "2020-01-01T00:00:00.0000000Z", EventRecordID := 42 }

/-- Claim C1 evaluated on the code: the emitted record of the scenario event
carries the single tag `eventlog_name` and the fixed seven fields — `Level`
and `LevelText` are not tags — even though `shouldProcessField` would
classify both into the tag list.  `Gather` never consults the classifier. -/
theorem gather_fixed_projection :
    (eventRecord scenarioConfig (fun _ => true) scenarioEvent).tags
        = [("eventlog_name", "Application")]
    ∧ (eventRecord scenarioConfig (fun _ => true) scenarioEvent).fields
        = [ ("record_id", FieldValue.int 42)
          , ("event_id", FieldValue.int 1000)
          , ("level", FieldValue.int 2)
          , ("message", FieldValue.str "Example message")
          , ("description", FieldValue.str "")
          , ("source", FieldValue.str "App")
          , ("created", FieldValue.str "2020-01-01T00:00:00.0000000Z") ]
    ∧ shouldProcessField scenarioConfig "Level" = (true, "tags")
    ∧ shouldProcessField scenarioConfig "LevelText" = (true, "tags") :=
  ⟨rfl, rfl, by decide, by decide⟩

/-- A configuration with `timestamp_from_event = false`. -/
def cfgWallClock : WinEventLog :=
  { mkConfig ["Source"] ["*"] [] [] with TimeStampFromEvent := false }

/-- Claim C7 evaluated on the code: with `timestamp_from_event = false` and a
parseable event time, the emitted record is still timestamped with the parsed
event time, not the wall clock — the setting is never consulted. -/
theorem gather_timestamp_ignores_setting :
    cfgWallClock.TimeStampFromEvent = false
    ∧ (eventRecord cfgWallClock (fun _ => true) scenarioEvent).timestamp
        = Timestamp.parsed "2020-01-01T00:00:00.0000000Z"
    ∧ (eventRecord cfgWallClock (fun _ => true) scenarioEvent).timestamp
        ≠ Timestamp.wallClock :=
  ⟨rfl, rfl, by decide⟩

/-- The scenario event with an EventData fragment
`<Data Name='param1'>x</Data>`. -/
def eventWithData : Event :=
  { scenarioEvent with
    EventDataInnerXML := [.element "Data" [("Name", "param1")] [.text "x"]] }

/-- A configuration with `process_eventdata = false` and
`process_userdata = false`. -/
def cfgNoEventData : WinEventLog :=
  { mkConfig [] ["*"] [] [] with ProcessEventData := false, ProcessUserData := false }

/-- Claim C8 evaluated on the code: with `process_eventdata = false` the
synthetic description still contains the flattened EventData values —
`createDescriptionFromEvent` takes no configuration at all, so the gating
booleans cannot reach it. -/
theorem description_ignores_gating :
    cfgNoEventData.ProcessEventData = false
    ∧ createDescriptionFromEvent eventWithData = "param1|x"
    ∧ ("description", FieldValue.str "param1|x")
        ∈ (eventRecord cfgNoEventData (fun _ => true) eventWithData).fields :=
  ⟨rfl, rfl, by decide⟩

/-! ## Event rendering and message formatting -/

/-- The five message-formatting kinds the plugin requests
(`EvtFormatMessage*` constants of the syscall layer). -/
inductive EvtFormatMessageFlag where
  | EvtFormatMessageEvent
  | EvtFormatMessageLevel
  | EvtFormatMessageTask
  | EvtFormatMessageOpcode
  | EvtFormatMessageKeyword
deriving DecidableEq, Repr

/-- Result of one `_EvtFormatMessage` call: the raw error (`none` on
success), the `bufferUsed` out-parameter (in UTF-16 words, before the
byte-doubling the Go code applies), and the words written to the buffer. -/
structure FmOut where
  err : Option ErrCode
  bufferUsed : Nat
  data : List Nat

/-- The collaborators of one `formatEventString` call for a fixed (event
handle, publisher handle, kind): `_EvtFormatMessage` keyed by the buffer size
in words (0 stands for the probe call with a nil buffer), and `DecodeUTF16`
(a util of the plugin not among the provided sources, so left abstract). -/
structure FmOracle where
  evtFormatMessage : Nat → FmOut
  decodeUTF16 : List Nat → Except ErrCode String

/-- `strings.FieldsFunc(s, c == 0)`: maximal runs of non-NUL characters, no
empty fields. -/
def splitOnNulAux : List Char → List Char → List String
  | [], acc => if acc.isEmpty then [] else [⟨acc.reverse⟩]
  | c :: rest, acc =>
    if c = '\x00' then
      if acc.isEmpty then splitOnNulAux rest []
      else ⟨acc.reverse⟩ :: splitOnNulAux rest []
    else splitOnNulAux rest (c :: acc)

/-- Keyword post-processing: split the zero-terminated string array. -/
def fieldsOnNul (s : String) : List String := splitOnNulAux s.data []

/-- `bytes.Trim(result, "\x00")`: strip leading and trailing NULs. -/
def trimNul (s : String) : String :=
  ⟨((s.data.dropWhile (fun c => c == '\x00')).reverse.dropWhile
      (fun c => c == '\x00')).reverse⟩

/-- ASCII whitespace for `strings.TrimSpace`. -/
def isSpaceChar (c : Char) : Bool :=
  c == ' ' || c == '\t' || c == '\n' || c == '\r' || c == '\x0b' || c == '\x0c'

/-- `strings.TrimSpace`. -/
def trimSpace (s : String) : String :=
  ⟨((s.data.dropWhile isSpaceChar).reverse.dropWhile isSpaceChar).reverse⟩

/-- The second half of `formatEventString`: allocate a buffer of exactly the
reported word count (the Go code doubles it into bytes and passes
`len(buffer)/2` words), issue the single sized call, and return its error
raw; on success decode and post-process (keywords joined by commas, others
NUL-trimmed).  The second component counts the `_EvtFormatMessage` calls
made in total. -/
def formatFill (o : FmOracle) (messageFlag : EvtFormatMessageFlag) (words : Nat) :
    Except ErrCode String × Nat :=
  let out := o.evtFormatMessage words
  match out.err with
  | some e => (.error e, 2)
  | none =>
    match o.decodeUTF16 (out.data.take out.bufferUsed) with
    | .error e => (.error e, 2)
    | .ok result =>
      if messageFlag = .EvtFormatMessageKeyword then
        (.ok (String.intercalate "," (fieldsOnNul result)), 2)
      else
        (.ok (trimNul result), 2)

/-- `formatEventString`: one probe call with a nil buffer to learn the
required size — any error other than insufficient-buffer is returned raw —
followed by exactly one sized call. -/
def formatEventString (o : FmOracle) (messageFlag : EvtFormatMessageFlag) :
    Except ErrCode String × Nat :=
  let probe := o.evtFormatMessage 0
  match probe.err with
  | some e =>
    if e = ErrCode.ERROR_INSUFFICIENT_BUFFER then
      formatFill o messageFlag probe.bufferUsed
    else (.error e, 1)
  | none => formatFill o messageFlag probe.bufferUsed

/-- Result of one `_EvtRender` call: the raw error, the `bufferUsed`
out-parameter and the bytes written into `w.buf`. -/
structure RenderOut where
  err : Option ErrCode
  bufferUsed : Nat
  data : List Nat

/-- The collaborators of one `renderEvent` call for a fixed event handle:
`_EvtRender` keyed by the passed buffer size `len(w.buf)`, `DecodeUTF16`,
`xml.Unmarshal` (returning the partially decoded event plus the error),
`openPublisherMetadata` keyed by source name and locale, and one
message-formatting oracle per kind. -/
structure RenderEnv where
  evtRender : Nat → RenderOut
  decodeUTF16 : List Nat → Except ErrCode String
  unmarshal : String → Event × Option ErrCode
  openPublisherMetadata : String → Nat → Except ErrCode EvtHandle
  format : EvtFormatMessageFlag → FmOracle

/-- The text-resolution tail of `renderEvent` (the straight-line code after
the publisher-metadata open succeeds): five `formatEventString` requests,
each successful one overwriting its field — keywords as returned, the
message trimmed and with CR/LF runs collapsed — and each failing one leaving
the field at its prior value. -/
def resolveEventText (env : RenderEnv) (event : Event) : Event :=
  let event :=
    match (formatEventString (env.format .EvtFormatMessageKeyword)
            .EvtFormatMessageKeyword).1 with
    | .ok keywords => { event with Keywords := keywords }
    | .error _ => event
  let event :=
    match (formatEventString (env.format .EvtFormatMessageEvent)
            .EvtFormatMessageEvent).1 with
    | .ok message => { event with Message := collapseCrlf (trimSpace message) }
    | .error _ => event
  let event :=
    match (formatEventString (env.format .EvtFormatMessageLevel)
            .EvtFormatMessageLevel).1 with
    | .ok level => { event with LevelText := level }
    | .error _ => event
  let event :=
    match (formatEventString (env.format .EvtFormatMessageTask)
            .EvtFormatMessageTask).1 with
    | .ok task => { event with TaskText := task }
    | .error _ => event
  let event :=
    match (formatEventString (env.format .EvtFormatMessageOpcode)
            .EvtFormatMessageOpcode).1 with
    | .ok opcode => { event with OpcodeText := opcode }
    | .error _ => event
  event

/-- `WinEventLog.renderEvent`: one `_EvtRender` call into the preallocated
buffer (a failure is returned raw, with no reallocation or retry), UTF-16
decode, XML unmarshal (a failure returns the partially decoded event with a
nil error), publisher-metadata open (a failure returns the decoded event
with a nil error), then best-effort text resolution — each formatting
failure leaves its field at the prior value.  The second component counts
the `_EvtRender` calls made. -/
def renderEvent (w : WinEventLog) (env : RenderEnv) : (Event × Option ErrCode) × Nat :=
  let event := Event.empty
  let out := env.evtRender w.bufLen
  match out.err with
  | some e => ((event, some e), 1)
  | none =>
    match env.decodeUTF16 (out.data.take out.bufferUsed) with
    | .error e => ((event, some e), 1)
    | .ok eventXML =>
      match env.unmarshal eventXML with
      | (event, some _) => ((event, none), 1)
      | (event, none) =>
        match env.openPublisherMetadata event.SourceName w.Locale with
        | .error _ => ((event, none), 1)
        | .ok _publisherHandle => ((resolveEventText env event, none), 1)

/-! ## win_services: the service-config query -/

namespace WinServices

/-- Result of one `windows.QueryServiceConfig` call on a buffer of the given
size: the raw errno (`none` on success), the size out-parameter `n` after
the call, and the decoded config on success. -/
structure QscOut where
  err : Option ErrCode
  n : Nat
  displayName : String
  startType : Nat

/-- The retry loop of `DisplayNameStartType` in the win_services plugin: call
with the current buffer, stop on success; a non-insufficient-buffer errno is
returned raw, as is an insufficient-buffer report whose required size does
not exceed the current buffer; otherwise reallocate to the reported size and
loop.  `none` is fuel exhaustion. -/
def displayNameLoop (q : Nat → QscOut) : Nat → Nat → Option (Except ErrCode (String × Nat))
  | 0, _ => none
  | fuel+1, n =>
    let out := q n
    match out.err with
    | none => some (.ok (out.displayName, out.startType))
    | some e =>
      if e ≠ ErrCode.ERROR_INSUFFICIENT_BUFFER then some (.error e)
      else if out.n ≤ n then some (.error e)
      else displayNameLoop q fuel out.n

/-- `DisplayNameStartType` starts with a 1024-byte buffer. -/
def DisplayNameStartType (q : Nat → QscOut) (fuel : Nat) :
    Option (Except ErrCode (String × Nat)) :=
  displayNameLoop q fuel 1024

end WinServices

/-! ## Rendering and formatting theorems -/

theorem formatFill_calls (o : FmOracle) (flag : EvtFormatMessageFlag) (words : Nat) :
    (formatFill o flag words).2 = 2 := by
  unfold formatFill
  cases herr : (o.evtFormatMessage words).err with
  | some e => simp [herr]
  | none =>
    cases hdec : o.decodeUTF16
        ((o.evtFormatMessage words).data.take (o.evtFormatMessage words).bufferUsed) with
    | error e => simp [herr, hdec]
    | ok result =>
      by_cases hf : flag = EvtFormatMessageFlag.EvtFormatMessageKeyword <;>
        simp [herr, hdec, hf]

theorem renderEvent_calls (w : WinEventLog) (env : RenderEnv) :
    (renderEvent w env).2 = 1 := by
  unfold renderEvent
  cases herr : (env.evtRender w.bufLen).err with
  | some e => simp [herr]
  | none =>
    cases hdec : env.decodeUTF16
        ((env.evtRender w.bufLen).data.take (env.evtRender w.bufLen).bufferUsed) with
    | error e => simp [herr, hdec]
    | ok xml =>
      rcases hu : env.unmarshal xml with ⟨ev, uerr⟩
      cases uerr with
      | some e => simp [herr, hdec, hu]
      | none =>
        cases hp : env.openPublisherMetadata ev.SourceName w.Locale with
        | error e => simp [herr, hdec, hu, hp]
        | ok pub => simp [herr, hdec, hu, hp]

set_option maxHeartbeats 2000000 in
/-- Claim C5: when the XML render and the UTF-16 decode succeed,
`renderEvent` never returns an error — an XML unmarshal failure yields the
partially decoded event (the event is not discarded), and a
publisher-metadata open failure yields the unmarshalled event unchanged,
its text-resolution fields left at their prior values. -/
theorem renderEvent_partial_failure (w : WinEventLog) (env : RenderEnv)
    (hrender : (env.evtRender w.bufLen).err = none) (xml : String)
    (hdecode : env.decodeUTF16
        ((env.evtRender w.bufLen).data.take (env.evtRender w.bufLen).bufferUsed)
      = Except.ok xml) :
    (renderEvent w env).1.2 = none
    ∧ (∀ ev e, env.unmarshal xml = (ev, some e) → (renderEvent w env).1 = (ev, none))
    ∧ (∀ ev e, env.unmarshal xml = (ev, none) →
        env.openPublisherMetadata ev.SourceName w.Locale = Except.error e →
        (renderEvent w env).1 = (ev, none)) := by
  refine ⟨?_, ?_, ?_⟩
  · unfold renderEvent
    simp only [hrender, hdecode]
    rcases hu : env.unmarshal xml with ⟨ev, uerr⟩
    cases uerr with
    | some e => rfl
    | none =>
      dsimp only
      cases hp : env.openPublisherMetadata ev.SourceName w.Locale with
      | error e => rfl
      | ok pub => rfl
  · intro ev e hu
    unfold renderEvent
    simp only [hrender, hdecode]
    rw [hu]
  · intro ev e hu hp
    unfold renderEvent
    simp only [hrender, hdecode]
    rw [hu]
    dsimp only
    rw [hp]

/-- A partially decoded event: unmarshalling filled two fields before
failing. -/
def partialEvent : Event := { Event.empty with EventID := 7, Level := 4 }

/-- A render environment whose XML unmarshal fails midway. -/
def envUnmarshalFail : RenderEnv :=
  { evtRender := fun _ => ⟨none, 2, [60, 62]⟩
  , decodeUTF16 := fun _ => .ok "<Event><System></Event>"
  , unmarshal := fun _ => (partialEvent, some (ErrCode.other 3))
  , openPublisherMetadata := fun _ _ => .ok 1
  , format := fun _ => ⟨fun _ => ⟨some (ErrCode.other 1), 0, []⟩, fun _ => .ok ""⟩ }

/-- A render environment whose publisher-metadata open fails. -/
def envPublisherFail : RenderEnv :=
  { evtRender := fun _ => ⟨none, 2, [60, 62]⟩
  , decodeUTF16 := fun _ => .ok "<Event/>"
  , unmarshal := fun _ => (scenarioEvent, none)
  , openPublisherMetadata := fun _ _ => .error (ErrCode.other 5)
  , format := fun _ => ⟨fun _ => ⟨some (ErrCode.other 1), 0, []⟩, fun _ => .ok ""⟩ }

/-- Concrete instantiation of the partial-failure theorem: a failing
unmarshal keeps the partial event, a failing publisher open keeps the
decoded event, both with a nil error. -/
theorem renderEvent_partial_failure_witness :
    (renderEvent (mkConfig [] ["*"] [] []) envUnmarshalFail).1 = (partialEvent, none)
    ∧ (renderEvent (mkConfig [] ["*"] [] []) envPublisherFail).1 = (scenarioEvent, none) :=
  ⟨(renderEvent_partial_failure (mkConfig [] ["*"] [] []) envUnmarshalFail rfl
      "<Event><System></Event>" rfl).2.1 partialEvent (ErrCode.other 3) rfl,
   (renderEvent_partial_failure (mkConfig [] ["*"] [] []) envPublisherFail rfl
      "<Event/>" rfl).2.2 scenarioEvent (ErrCode.other 5) rfl rfl⟩

/-- A render environment reporting insufficient buffer with a required size
double the preallocated buffer. -/
def envRenderInsufficient : RenderEnv :=
  { evtRender := fun _ => ⟨some ErrCode.ERROR_INSUFFICIENT_BUFFER, 32768, []⟩
  , decodeUTF16 := fun _ => .ok ""
  , unmarshal := fun _ => (Event.empty, none)
  , openPublisherMetadata := fun _ _ => .ok 1
  , format := fun _ => ⟨fun _ => ⟨none, 0, []⟩, fun _ => .ok ""⟩ }

/-- Claim C3 refuted for event rendering: with the 16384-byte preallocated
buffer and a render reporting insufficient buffer with required size 32768,
`renderEvent` makes exactly one native render call and fails with the raw
error code — there is no reallocation and no retry. -/
theorem renderEvent_no_retry_counterexample :
    (renderEvent (mkConfig [] ["*"] [] []) envRenderInsufficient).2 = 1
    ∧ (renderEvent (mkConfig [] ["*"] [] []) envRenderInsufficient).1
        = (Event.empty, some ErrCode.ERROR_INSUFFICIENT_BUFFER)
    ∧ (mkConfig [] ["*"] [] []).bufLen = 16384
    ∧ (envRenderInsufficient.evtRender 16384).bufferUsed = 32768 :=
  ⟨rfl, rfl, rfl, rfl⟩

/-- Claim C3 amended: message formatting performs one probe call and at most
one sized call, returning a non-insufficient probe error and any sized-call
error raw with no retry; event rendering performs exactly one call into the
fixed preallocated buffer and returns any failure raw, with no reallocation;
only the service-config query retries on a growing required size, and it
fails with the raw error when the reported size does not exceed the current
buffer. -/
theorem sized_buffer_call_protocol :
    (∀ (o : FmOracle) (flag : EvtFormatMessageFlag),
        (formatEventString o flag).2 ≤ 2
      ∧ (∀ e, (o.evtFormatMessage 0).err = some e →
            e ≠ ErrCode.ERROR_INSUFFICIENT_BUFFER →
            formatEventString o flag = (.error e, 1))
      ∧ (∀ e, ((o.evtFormatMessage 0).err = none ∨
               (o.evtFormatMessage 0).err = some ErrCode.ERROR_INSUFFICIENT_BUFFER) →
            (o.evtFormatMessage (o.evtFormatMessage 0).bufferUsed).err = some e →
            formatEventString o flag = (.error e, 2)))
    ∧ (∀ (w : WinEventLog) (env : RenderEnv),
        (renderEvent w env).2 = 1
      ∧ (∀ e, (env.evtRender w.bufLen).err = some e →
            (renderEvent w env).1 = (Event.empty, some e)))
    ∧ (∀ (q : Nat → WinServices.QscOut) (fuel n : Nat),
        (q n).err = some ErrCode.ERROR_INSUFFICIENT_BUFFER →
        (q n).n ≤ n →
        WinServices.displayNameLoop q (fuel + 1) n
          = some (.error ErrCode.ERROR_INSUFFICIENT_BUFFER)) := by
  refine ⟨?_, ?_, ?_⟩
  · intro o flag
    refine ⟨?_, ?_, ?_⟩
    · cases hp : (o.evtFormatMessage 0).err with
      | none =>
        have h2 : (formatEventString o flag).2 = 2 := by
          unfold formatEventString
          simp [hp, formatFill_calls]
        omega
      | some e =>
        by_cases he : e = ErrCode.ERROR_INSUFFICIENT_BUFFER
        · have h2 : (formatEventString o flag).2 = 2 := by
            unfold formatEventString
            simp [hp, he, formatFill_calls]
          omega
        · have h2 : (formatEventString o flag).2 = 1 := by
            unfold formatEventString
            simp [hp, he]
          omega
    · intro e he hne
      unfold formatEventString
      simp [he, hne]
    · intro e hprobe hfill
      have hfe : formatFill o flag (o.evtFormatMessage 0).bufferUsed
          = (.error e, 2) := by
        unfold formatFill
        simp [hfill]
      unfold formatEventString
      rcases hprobe with h | h
      · simp [h, hfe]
      · simp [h, hfe]
  · intro w env
    refine ⟨renderEvent_calls w env, ?_⟩
    intro e he
    unfold renderEvent
    simp [he]
  · intro q fuel n he hle
    unfold WinServices.displayNameLoop
    simp [he, hle]

/-- A format oracle whose probe call fails with a raw error. -/
def fmProbeFail : FmOracle :=
  ⟨fun _ => ⟨some (ErrCode.other 5), 0, []⟩, fun _ => .ok ""⟩

/-- A format oracle whose probe reports insufficient buffer with 10 words
required and whose sized call then fails. -/
def fmFillFail : FmOracle :=
  ⟨fun n => if n = 0 then ⟨some ErrCode.ERROR_INSUFFICIENT_BUFFER, 10, []⟩
            else ⟨some (ErrCode.other 6), 0, []⟩,
   fun _ => .ok ""⟩

/-- A render environment whose render call fails with a raw error. -/
def envRenderFail : RenderEnv :=
  { evtRender := fun _ => ⟨some (ErrCode.other 7), 0, []⟩
  , decodeUTF16 := fun _ => .ok ""
  , unmarshal := fun _ => (Event.empty, none)
  , openPublisherMetadata := fun _ _ => .ok 1
  , format := fun _ => ⟨fun _ => ⟨none, 0, []⟩, fun _ => .ok ""⟩ }

/-- A service-config oracle reporting insufficient buffer without growing the
required size. -/
def qNoProgress : Nat → WinServices.QscOut :=
  fun n => ⟨some ErrCode.ERROR_INSUFFICIENT_BUFFER, n, "", 0⟩

/-- Concrete instantiation of the amended buffer protocol. -/
theorem sized_buffer_call_protocol_witness :
    formatEventString fmProbeFail .EvtFormatMessageEvent
        = (.error (ErrCode.other 5), 1)
    ∧ formatEventString fmFillFail .EvtFormatMessageEvent
        = (.error (ErrCode.other 6), 2)
    ∧ (renderEvent (mkConfig [] ["*"] [] []) envRenderFail).1
        = (Event.empty, some (ErrCode.other 7))
    ∧ WinServices.displayNameLoop qNoProgress 1 1024
        = some (.error ErrCode.ERROR_INSUFFICIENT_BUFFER) :=
  ⟨(sized_buffer_call_protocol.1 fmProbeFail .EvtFormatMessageEvent).2.1
      (ErrCode.other 5) rfl (by decide),
   (sized_buffer_call_protocol.1 fmFillFail .EvtFormatMessageEvent).2.2
      (ErrCode.other 6) (Or.inr rfl) rfl,
   (sized_buffer_call_protocol.2.1 (mkConfig [] ["*"] [] []) envRenderFail).2
      (ErrCode.other 7) rfl,
   sized_buffer_call_protocol.2.2 qNoProgress 0 1024 rfl (by decide)⟩

end WinEventlogPlugin
